import Mathlib

/-
  Verification development for the zaim-api-mcp advanced search / bulk
  mutation engine.

  The definitions below are a shallow embedding of the TypeScript sources:
    - src/types/advanced-search.ts   (condition model, update spec)
    - src/types/zaim-api.ts          (ZaimMoney record)
    - src/utils/search-condition-evaluator.ts
    - src/utils/pagination-helper.ts
    - src/tools/advanced/bulk-update-tool.ts
    - src/tools/advanced/advanced-search-tool.ts (bulk delete part and search part)

  Modelling conventions:
    - TypeScript `number` is modelled as `Int` (amounts/ids/counts are integral
      in this system; no claim depends on floating point).
    - Calendar dates handled by the pagination helper are modelled as `Nat`
      day numbers: the source parses `YYYY-MM-DD` strings into JS `Date`s,
      does day arithmetic and formats back; day numbers are order- and
      arithmetic-isomorphic to that.  The condition evaluator keeps dates as
      strings compared lexicographically, exactly as the source does.
    - Optional record fields / optional operands are `Option`.
    - I/O (page fetch, record mutate) is dependency-injected as function
      parameters; every remote invocation is logged into an `ExtCall` trace
      returned alongside the result, so "no write was issued" is a statement
      about the trace.
    - Inter-request delays (a wall-clock concern) are not modelled.
-/

namespace Zaim

/-- Logical operator of a composite condition (advanced-search.ts `LogicalOperatorSchema`). -/
inductive LogicalOperator
  | AND
  | OR
deriving DecidableEq, Repr

/-- Record kind (zaim-api.ts `mode` enum: payment | income | transfer). -/
inductive Mode
  | payment
  | income
  | transfer
deriving DecidableEq, Repr

/-- A ledger record, from `ZaimMoneySchema` in zaim-api.ts.  Fields that are
`.optional()` in the zod schema are `Option`; all others are required. -/
structure ZaimMoney where
  id : Int
  mode : Mode
  user_id : Int
  date : String
  category_id : Int
  genre_id : Int
  account_id : Int
  amount : Int
  comment : String
  place : Option String
  name : Option String
  active : Int
  created : String
  currency_code : String
  category : String
  genre : String
  account : String
  from_account_id : Option Int
  to_account_id : Option Int
deriving DecidableEq, Repr

/-- String-searchable fields (advanced-search.ts `StringConditionSchema.field`). -/
inductive StrField
  | place
  | name
  | comment
  | category
  | genre
  | account
deriving DecidableEq, Repr

/-- Number-searchable fields (advanced-search.ts `NumberConditionSchema.field`). -/
inductive NumField
  | id
  | category_id
  | genre_id
  | account_id
  | from_account_id
  | to_account_id
  | amount
deriving DecidableEq, Repr

/-- String comparison operators (`StringOperatorSchema`). -/
inductive StringOperator
  | equals
  | contains
  | startsWith
  | endsWith
deriving DecidableEq, Repr

/-- Number comparison operators (`NumberOperatorSchema`). -/
inductive NumberOperator
  | equals
  | notEquals
  | greaterThan
  | lessThan
  | greaterOrEqual
  | lessOrEqual
  | between
deriving DecidableEq, Repr

/-- Date comparison operators (`DateOperatorSchema`). -/
inductive DateOperator
  | equals
  | before
  | after
  | between
  | onOrBefore
  | onOrAfter
deriving DecidableEq, Repr

/-- Embeds `StringConditionSchema`: field, operator, value, optional case-sensitivity. -/
structure StringCondition where
  field : StrField
  operator : StringOperator
  value : String
  caseSensitive : Option Bool := none
deriving DecidableEq, Repr

/-- Embeds `NumberConditionSchema`: value / min / max are all optional in the schema. -/
structure NumberCondition where
  field : NumField
  operator : NumberOperator
  value : Option Int := none
  min : Option Int := none
  max : Option Int := none
deriving DecidableEq, Repr

/-- Embeds `DateConditionSchema` (field is the literal `date`). -/
structure DateCondition where
  operator : DateOperator
  value : Option String := none
  startDate : Option String := none
  endDate : Option String := none
deriving DecidableEq, Repr

/-- Embeds `ModeConditionSchema` (field is the literal `mode`, operator the literal `equals`). -/
structure ModeCondition where
  value : Mode
deriving DecidableEq, Repr

/-- Embeds `SearchConditionSchema`: the four single-predicate variants.  The zod union
branches have pairwise disjoint `field` name sets, so the tagged sum is exact. -/
inductive SearchCondition
  | str (c : StringCondition)
  | num (c : NumberCondition)
  | date (c : DateCondition)
  | mode (c : ModeCondition)
deriving DecidableEq, Repr

/-- Embeds `SearchCriteria` = single condition or recursive AND/OR composite
(`CompositeConditionSchema`). -/
inductive SearchCriteria
  | cond (c : SearchCondition)
  | composite (operator : LogicalOperator) (conditions : List SearchCriteria)

/-- JS property lookup `record[field]` for the string-condition fields.
`place` and `name` are optional on the record; the rest are required. -/
def strFieldValue (r : ZaimMoney) : StrField → Option String
  | .place => r.place
  | .name => r.name
  | .comment => some r.comment
  | .category => some r.category
  | .genre => some r.genre
  | .account => some r.account

/-- JS property lookup `record[field]` for the number-condition fields.
`from_account_id` / `to_account_id` are optional on the record. -/
def numFieldValue (r : ZaimMoney) : NumField → Option Int
  | .id => some r.id
  | .category_id => some r.category_id
  | .genre_id => some r.genre_id
  | .account_id => some r.account_id
  | .from_account_id => r.from_account_id
  | .to_account_id => r.to_account_id
  | .amount => some r.amount

/-- Lexicographic character order by code point (the JS `<` on one-char strings). -/
def charLt (a b : Char) : Bool :=
  a.toNat < b.toNat

/-- Lexicographic order on character lists; embeds the JS code-unit-wise
string comparison (identical on the basic plane). -/
def charListLt : List Char → List Char → Bool
  | [], [] => false
  | [], _ :: _ => true
  | _ :: _, [] => false
  | a :: as, b :: bs => charLt a b || (a == b && charListLt as bs)

/-- JS string `<` (lexicographic). -/
def strLt (a b : String) : Bool :=
  charListLt a.data b.data

/-- JS string `<=` (lexicographic): equal or strictly less. -/
def strLe (a b : String) : Bool :=
  a == b || strLt a b

/-- JS `String.prototype.toLowerCase` (ASCII range; no claim depends on
locale-specific case folding). -/
def jsToLower (s : String) : String :=
  ⟨s.data.map Char.toLower⟩

/-- JS `String.prototype.startsWith`. -/
def jsStartsWith (s pat : String) : Bool :=
  pat.data.isPrefixOf s.data

/-- JS `String.prototype.endsWith`. -/
def jsEndsWith (s pat : String) : Bool :=
  pat.data.isSuffixOf s.data

/-- Scanner for JS `String.prototype.split` with a non-empty separator:
non-overlapping matches scanning left to right.  `cur` holds the characters
of the current piece in reverse; the fuel argument is a structural-recursion
bound and never runs out when started at the length of the remainder. -/
def jsSplitChars (pat : List Char) : Nat → List Char → List Char → List (List Char)
  | _, cur, [] => [cur.reverse]
  | 0, cur, rem => [cur.reverse ++ rem]
  | fuel + 1, cur, c :: rest =>
    if pat.isPrefixOf (c :: rest) then
      cur.reverse :: jsSplitChars pat fuel [] ((c :: rest).drop pat.length)
    else
      jsSplitChars pat fuel (c :: cur) rest

/-- JS `s.split(pat)`: the empty separator splits into single characters. -/
def jsSplit (s pat : String) : List String :=
  if pat = "" then s.data.map (fun c => String.mk [c])
  else (jsSplitChars pat.data s.data.length [] s.data).map String.mk

/-- JS `String.prototype.includes` (substring containment): splitting on the
pattern yields more than one piece exactly when the pattern occurs, and the
empty pattern is always contained. -/
def jsIncludes (s pat : String) : Bool :=
  if pat = "" then true else 2 ≤ (jsSplit s pat).length

/-- Embeds `evaluateStringCondition` from search-condition-evaluator.ts:
missing/null field value is `false`; comparisons case-normalized unless
`caseSensitive` is true. -/
def evaluateStringCondition (r : ZaimMoney) (c : StringCondition) : Bool :=
  match strFieldValue r c.field with
  | none => false
  | some valueStr =>
    let cs := c.caseSensitive.getD false
    let searchValue := if cs then c.value else jsToLower c.value
    let compareValue := if cs then valueStr else jsToLower valueStr
    match c.operator with
    | .equals => compareValue == searchValue
    | .contains => jsIncludes compareValue searchValue
    | .startsWith => jsStartsWith compareValue searchValue
    | .endsWith => jsEndsWith compareValue searchValue

/-- Embeds `evaluateNumberCondition`: missing/null field value is `false`; note that
the source compares `numValue === condition.value` for `equals` (false when the
operand is absent) but `numValue !== condition.value` for `notEquals` (true
when the operand is absent), and guards the remaining operators explicitly. -/
def evaluateNumberCondition (r : ZaimMoney) (c : NumberCondition) : Bool :=
  match numFieldValue r c.field with
  | none => false
  | some numValue =>
    match c.operator with
    | .equals => match c.value with | some v => numValue == v | none => false
    | .notEquals => match c.value with | some v => numValue != v | none => true
    | .greaterThan => match c.value with | some v => decide (v < numValue) | none => false
    | .lessThan => match c.value with | some v => decide (numValue < v) | none => false
    | .greaterOrEqual => match c.value with | some v => decide (v ≤ numValue) | none => false
    | .lessOrEqual => match c.value with | some v => decide (numValue ≤ v) | none => false
    | .between =>
      match c.min, c.max with
      | some lo, some hi => decide (lo ≤ numValue) && decide (numValue ≤ hi)
      | _, _ => false

/-- Embeds `evaluateDateCondition`: the source reads `record.date` (a required string
field), treats a falsy value (empty string) as absent, and compares the first
ten characters lexicographically against the operands. -/
def evaluateDateCondition (r : ZaimMoney) (c : DateCondition) : Bool :=
  if r.date = "" then false
  else
    let recordDate := r.date.take 10
    match c.operator with
    | .equals => match c.value with | some v => recordDate == v | none => false
    | .before => match c.value with | some v => strLt recordDate v | none => false
    | .after => match c.value with | some v => strLt v recordDate | none => false
    | .onOrBefore => match c.value with | some v => strLe recordDate v | none => false
    | .onOrAfter => match c.value with | some v => strLe v recordDate | none => false
    | .between =>
      match c.startDate, c.endDate with
      | some s, some e => strLe s recordDate && strLe recordDate e
      | _, _ => false

/-- Embeds `evaluateModeCondition`: direct equality on the required `mode` field. -/
def evaluateModeCondition (r : ZaimMoney) (c : ModeCondition) : Bool :=
  r.mode == c.value

/-- Embeds `evaluateCondition`: dispatch on the condition variant (the source's
type-guard chain over disjoint field-name sets). -/
def evaluateCondition (r : ZaimMoney) : SearchCondition → Bool
  | .str c => evaluateStringCondition r c
  | .num c => evaluateNumberCondition r c
  | .date c => evaluateDateCondition r c
  | .mode c => evaluateModeCondition r c

mutual

/-- Embeds `evaluateCriteria` / `evaluateCompositeCondition`: an empty composite is
`true`; AND is `every`, OR is `some`, recursing into nested composites. -/
def evaluateCriteria (r : ZaimMoney) : SearchCriteria → Bool
  | .cond c => evaluateCondition r c
  | .composite op conds =>
    match conds with
    | [] => true
    | _ =>
      match op with
      | .AND => evalAllCriteria r conds
      | .OR => evalAnyCriteria r conds

/-- Embeds `conditions.every(...)` over the children of an AND composite. -/
def evalAllCriteria (r : ZaimMoney) : List SearchCriteria → Bool
  | [] => true
  | c :: cs => evaluateCriteria r c && evalAllCriteria r cs

/-- Embeds `conditions.some(...)` over the children of an OR composite. -/
def evalAnyCriteria (r : ZaimMoney) : List SearchCriteria → Bool
  | [] => false
  | c :: cs => evaluateCriteria r c || evalAnyCriteria r cs

end

/-- Embeds `evaluateCompositeCondition` applied to a composite node, as a named
entry point for the statements below. -/
def evaluateCompositeCondition (r : ZaimMoney) (op : LogicalOperator)
    (conds : List SearchCriteria) : Bool :=
  evaluateCriteria r (.composite op conds)

/-- Embeds `filterRecords`: keep the records satisfying the criteria. -/
def filterRecords (records : List ZaimMoney) (criteria : SearchCriteria) : List ZaimMoney :=
  records.filter (fun r => evaluateCriteria r criteria)

/-- Three-way string comparison used by the sort comparator (the source uses
`localeCompare`, modelled as code-point comparison; no claim depends on
locale collation). -/
def strCompare (a b : String) : Ordering :=
  if a == b then .eq else if strLt a b then .lt else .gt

/-- The fixed sort comparator of `sortRecords`: date descending, then place
ascending, then name ascending (absent place/name compare as `""`). -/
def recordCompare (a b : ZaimMoney) : Ordering :=
  (strCompare b.date a.date).then
    ((strCompare (a.place.getD "") (b.place.getD "")).then
      (strCompare (a.name.getD "") (b.name.getD "")))

/-- Embeds `sortRecords`: stable sort by `recordCompare` (JS `Array.prototype.sort`
is stable; insertion sort realizes the same stable order). -/
def sortRecords (records : List ZaimMoney) : List ZaimMoney :=
  records.insertionSort (fun a b => recordCompare a b ≠ .gt)

/-- Embeds `searchAndSort`: filter, sort, then truncate to `maxRecords` when it is
present and positive. -/
def searchAndSort (records : List ZaimMoney) (criteria : SearchCriteria)
    (maxRecords : Option Nat) : List ZaimMoney :=
  let result := filterRecords records criteria
  let result := sortRecords result
  match maxRecords with
  | some m => if 0 < m then result.take m else result
  | none => result

/-- Output modes (`OutputModeSchema`). -/
inductive OutputMode
  | id_only
  | specified
  | full
deriving DecidableEq, Repr

/-- Output control settings (`OutputControlSchema`); character caps are `Nat`
(the schema requires positive numbers).  Field names are plain strings, as in
the source's allow-list. -/
structure OutputControl where
  mode : OutputMode := .full
  fields : Option (List String) := none
  maxCharsPerRecord : Option Nat := none
  maxTotalChars : Option Nat := none
  maxRecords : Option Nat := none
deriving DecidableEq, Repr

/-- A serialized JSON scalar occurring in a formatted record. -/
inductive JsonVal
  | num (n : Int)
  | str (s : String)
deriving DecidableEq, Repr

/-- Remote-facing name of a record kind. -/
def Mode.toName : Mode → String
  | .payment => "payment"
  | .income => "income"
  | .transfer => "transfer"

/-- The key/value entries present on a record object, in declaration order;
optional fields contribute an entry only when present (mirrors `field in
record` on the parsed JSON object). -/
def recordEntries (r : ZaimMoney) : List (String × JsonVal) :=
  [("id", .num r.id), ("mode", .str r.mode.toName), ("user_id", .num r.user_id),
   ("date", .str r.date), ("category_id", .num r.category_id),
   ("genre_id", .num r.genre_id), ("account_id", .num r.account_id),
   ("amount", .num r.amount), ("comment", .str r.comment)] ++
  (match r.place with | some p => [("place", JsonVal.str p)] | none => []) ++
  (match r.name with | some n => [("name", JsonVal.str n)] | none => []) ++
  [("active", .num r.active), ("created", .str r.created),
   ("currency_code", .str r.currency_code), ("category", .str r.category),
   ("genre", .str r.genre), ("account", .str r.account)] ++
  (match r.from_account_id with | some v => [("from_account_id", JsonVal.num v)] | none => []) ++
  (match r.to_account_id with | some v => [("to_account_id", JsonVal.num v)] | none => [])

/-- A formatted record: the bare id for `id_only`, otherwise an object. -/
inductive FormattedRecord
  | num (id : Int)
  | obj (entries : List (String × JsonVal))
deriving DecidableEq, Repr

/-- Embeds `pickFields`: copy, in allow-list order, the allow-listed fields that are
present on the record; a repeated allow-list entry does not duplicate a key
(JS object assignment is idempotent here). -/
def pickFields (r : ZaimMoney) (fields : List String) : List (String × JsonVal) :=
  fields.foldl
    (fun acc f =>
      match (recordEntries r).lookup f with
      | some v => if acc.any (fun e => e.1 == f) then acc else acc ++ [(f, v)]
      | none => acc)
    []

/-- Serialization of a JSON scalar (string escaping is not modelled; no claim
depends on the serialized text, only on the formatter's control flow). -/
def JsonVal.render : JsonVal → String
  | .num n => toString n
  | .str s => "\x22" ++ s ++ "\x22"

/-- Embeds `JSON.stringify` of a formatted record. -/
def jsonStringify : FormattedRecord → String
  | .num n => toString n
  | .obj entries =>
    "\x7b" ++
      String.intercalate ","
        (entries.map (fun e => "\x22" ++ e.1 ++ "\x22:" ++ e.2.render)) ++
    "\x7d"

/-- Embeds `stringifyWithLimit`: serialize, then hard-truncate to `cap - 3` characters
plus an ellipsis when the cap is exceeded.  (For caps below 3 the JS negative
slice index would instead count from the end; the schema requires a positive
cap and no claim exercises caps below 3.) -/
def stringifyWithLimit (rec : FormattedRecord) (maxChars : Option Nat) : String :=
  let json := jsonStringify rec
  match maxChars with
  | none => json
  | some m => if json.length ≤ m then json else json.take (m - 3) ++ "..."

/-- Shape one record according to the output mode (`specified` without a
non-empty allow-list behaves as `full`). -/
def formatOne (mode : OutputMode) (fields : Option (List String)) (r : ZaimMoney) :
    FormattedRecord :=
  match mode with
  | .id_only => .num r.id
  | .specified =>
    match fields with
    | some fs => if 0 < fs.length then .obj (pickFields r fs) else .obj (recordEntries r)
    | none => .obj (recordEntries r)
  | .full => .obj (recordEntries r)

/-- Result record of `formatOutput`. -/
structure FormatOutputResult where
  records : List FormattedRecord
  count : Nat
  truncated : Bool
  truncatedCount : Nat
deriving DecidableEq, Repr

/-- The `formatOutput` loop: emit records until one would push the running
serialized-character total past `maxTotalChars`; that record and all remaining
ones are counted as truncated.  `inputLen` is the length of the full input
list (used for the truncated count), `acc` the records emitted so far. -/
def formatGo (oc : OutputControl) (inputLen : Nat) :
    List ZaimMoney → List FormattedRecord → Nat → List FormattedRecord × Bool × Nat
  | [], acc, _ => (acc, false, 0)
  | r :: rest, acc, totalChars =>
    let fr := formatOne oc.mode oc.fields r
    let recordChars := (stringifyWithLimit fr oc.maxCharsPerRecord).length
    match oc.maxTotalChars with
    | some cap =>
      if cap < totalChars + recordChars then (acc, true, inputLen - acc.length)
      else formatGo oc inputLen rest (acc ++ [fr]) (totalChars + recordChars)
    | none => formatGo oc inputLen rest (acc ++ [fr]) (totalChars + recordChars)

/-- Embeds `formatOutput` from search-condition-evaluator.ts.  Note: it reads `mode`,
`fields`, `maxCharsPerRecord` and `maxTotalChars` from the output control and
does not consult `maxRecords`. -/
def formatOutput (records : List ZaimMoney) (outputControl : Option OutputControl) :
    FormatOutputResult :=
  let oc := outputControl.getD {}
  let res := formatGo oc records.length records [] 0
  { records := res.1, count := res.1.length, truncated := res.2.1, truncatedCount := res.2.2 }

/-- An inclusive calendar sub-range handed to the page fetcher.  Dates are
modelled as day numbers (the source's `YYYY-MM-DD` strings and JS `Date`
day arithmetic are order- and arithmetic-isomorphic to `Nat` days). -/
structure SubRange where
  start : Nat
  stop : Nat
deriving DecidableEq, Repr

/-- The chunking loop of `splitDateRange`: emit `[curStart, min (curStart +
daysPerChunk - 1) endD]` and restart the day after, while `curStart ≤ endD`.
Each step advances `curStart` by at least one day, so the fuel argument
(started at `endD + 1 - curStart`) runs out exactly when the guard fails.
(The source is only ever invoked with the default chunk size 31; a zero chunk
size, which would not terminate in the source, chunks day by day here.) -/
def splitGo (endD daysPerChunk : Nat) : Nat → Nat → List SubRange
  | 0, _ => []
  | fuel + 1, curStart =>
    if curStart ≤ endD then
      let actualEnd := min (curStart + (daysPerChunk - 1)) endD
      ⟨curStart, actualEnd⟩ :: splitGo endD daysPerChunk fuel (actualEnd + 1)
    else []

/-- Embeds `splitDateRange`: an inverted range yields no chunks (the source also
returns `[]` for unparseable dates, which day numbers cannot express). -/
def splitDateRange (startD endD : Nat) (daysPerChunk : Nat := 31) : List SubRange :=
  if endD < startD then [] else splitGo endD daysPerChunk (endD + 1 - startD) startD

/-- Pagination options (`PaginationOptionsSchema` with its zod defaults
applied; the inter-request delay is wall-clock behaviour and not modelled). -/
structure PaginationOptions where
  startPage : Nat := 1
  pageSize : Nat := 100
  maxRecords : Option Nat := none
  maxPages : Nat := 100
deriving DecidableEq, Repr

/-- Embeds `PaginationResult` from pagination-helper.ts. -/
structure PaginationResult where
  records : List ZaimMoney
  pagesRetrieved : Nat
  totalRecords : Nat
  hasMore : Bool
  hasError : Bool
  errorMessage : Option String
deriving DecidableEq, Repr

/-- One remote invocation observable in a run's trace. -/
inductive ExtCall
  | fetchPage (range : SubRange) (page : Nat) (limit : Nat)
  | putMoney (mode : Mode) (id : Int)
  | deleteMoney (mode : Mode) (id : Int)
deriving DecidableEq, Repr

/-- Whether a trace entry is a read (page fetch) rather than a mutation. -/
def ExtCall.isFetch : ExtCall → Bool
  | .fetchPage _ _ _ => true
  | .putMoney _ _ => false
  | .deleteMoney _ _ => false

/-- The injected page-fetch capability: sub-range, page number, page size;
either a page of records or a thrown error message. -/
def FetchFn : Type :=
  SubRange → Nat → Nat → Except String (List ZaimMoney)

/-- Intermediate state of the `fetchAllRecords` page loop. -/
structure FetchGoResult where
  records : List ZaimMoney
  pages : Nat
  hasMore : Bool
  hasError : Bool
  errorMessage : Option String
  calls : List ExtCall
deriving Repr

/-- Has the max-record guard been reached (`maxRecords !== undefined &&
n >= maxRecords`)? -/
def maxRecordsReached (maxRecords : Option Nat) (n : Nat) : Bool :=
  match maxRecords with
  | some m => m ≤ n
  | none => false

/-- The page loop of `fetchAllRecords`.  `k` counts pages already fetched
(`currentPage = startPage + k`); the fuel argument starts at `maxPages`, so
running out of fuel is exactly the source's max-page-count guard.  Stops with
`hasMore = false` on a short page, `hasMore = true` on either safety guard,
and records the thrown message on a fetch error. -/
def fetchGo (f : FetchFn) (sub : SubRange) (opts : PaginationOptions) :
    Nat → Nat → List ZaimMoney → List ExtCall → FetchGoResult
  | 0, k, acc, calls => ⟨acc, k + 1, true, false, none, calls⟩
  | fuel + 1, k, acc, calls =>
    if maxRecordsReached opts.maxRecords acc.length then
      ⟨acc, k + 1, true, false, none, calls⟩
    else
      let page := opts.startPage + k
      let calls := calls ++ [ExtCall.fetchPage sub page opts.pageSize]
      match f sub page opts.pageSize with
      | .error msg => ⟨acc, k + 1, true, true, some msg, calls⟩
      | .ok recs =>
        let acc := acc ++ recs
        if recs.length < opts.pageSize then ⟨acc, k + 1, false, false, none, calls⟩
        else fetchGo f sub opts fuel (k + 1) acc calls

/-- Embeds `fetchAllRecords`: run the page loop, then truncate to `maxRecords`
(setting `hasMore`) on the success path; the error path returns everything
gathered untruncated with `hasMore = true`. -/
def fetchAllRecords (f : FetchFn) (sub : SubRange) (opts : PaginationOptions) :
    PaginationResult × List ExtCall :=
  let g := fetchGo f sub opts opts.maxPages 0 [] []
  if g.hasError then
    ({ records := g.records, pagesRetrieved := g.pages, totalRecords := g.records.length,
       hasMore := true, hasError := true, errorMessage := g.errorMessage }, g.calls)
  else
    let final :=
      match opts.maxRecords with
      | some m =>
        if m < g.records.length then (g.records.take m, true) else (g.records, g.hasMore)
      | none => (g.records, g.hasMore)
    ({ records := final.1, pagesRetrieved := g.pages, totalRecords := final.1.length,
       hasMore := final.2, hasError := false, errorMessage := none }, g.calls)

/-- Embeds `removeDuplicates` scanner: drop a record whose id was already seen. -/
def removeDupGo (seen : List Int) : List ZaimMoney → List ZaimMoney
  | [] => []
  | r :: rest =>
    if r.id ∈ seen then removeDupGo seen rest
    else r :: removeDupGo (r.id :: seen) rest

/-- Embeds `removeDuplicates`: id-based, keeping the first occurrence. -/
def removeDuplicates (records : List ZaimMoney) : List ZaimMoney :=
  removeDupGo [] records

/-- State returned by the sub-range loop of `fetchByDateRanges`. -/
structure RangesGoResult where
  records : List ZaimMoney
  pages : Nat
  hasError : Bool
  errorMessage : Option String
  calls : List ExtCall
deriving Repr

/-- The sub-range loop of `fetchByDateRanges`: fetch each sub-range in order,
accumulating records and page counts; stop early on a fetch error or once the
accumulated record count reaches `maxRecords`. -/
def rangesGo (f : FetchFn) (opts : PaginationOptions) :
    List SubRange → List ZaimMoney → Nat → List ExtCall → RangesGoResult
  | [], acc, pages, calls => ⟨acc, pages, false, none, calls⟩
  | rg :: rest, acc, pages, calls =>
    let step := fetchAllRecords f rg opts
    let acc := acc ++ step.1.records
    let pages := pages + step.1.pagesRetrieved
    let calls := calls ++ step.2
    if step.1.hasError then ⟨acc, pages, true, step.1.errorMessage, calls⟩
    else if maxRecordsReached opts.maxRecords acc.length then ⟨acc, pages, false, none, calls⟩
    else rangesGo f opts rest acc pages calls

/-- The records accumulated across all sub-windows, before the final
truncation and deduplication steps of `fetchByDateRanges`. -/
def gatherAllRanges (f : FetchFn) (startD endD : Nat) (opts : PaginationOptions) :
    List ZaimMoney :=
  (rangesGo f opts (splitDateRange startD endD) [] 0 []).records

/-- Embeds `fetchByDateRanges`: split the window, run the sub-range loop, truncate
the accumulated list to `maxRecords` (setting `hasMore`), then deduplicate by
id.  Truncation happens before deduplication, exactly as in the source. -/
def fetchByDateRanges (f : FetchFn) (startD endD : Nat) (opts : PaginationOptions) :
    PaginationResult × List ExtCall :=
  let ranges := splitDateRange startD endD
  if ranges.isEmpty then
    ({ records := [], pagesRetrieved := 0, totalRecords := 0,
       hasMore := false, hasError := false, errorMessage := none }, [])
  else
    let g := rangesGo f opts ranges [] 0 []
    let final :=
      match opts.maxRecords with
      | some m =>
        if m < g.records.length then (g.records.take m, true) else (g.records, false)
      | none => (g.records, false)
    let uniqueRecords := removeDuplicates final.1
    ({ records := uniqueRecords, pagesRetrieved := g.pages,
       totalRecords := uniqueRecords.length, hasMore := final.2,
       hasError := g.hasError, errorMessage := g.errorMessage }, g.calls)

/-- An inclusive request date window (`dateRange`), in day numbers. -/
structure DateRange where
  start : Nat
  stop : Nat
deriving DecidableEq, Repr

/-- String update directive modes (`StringUpdateModeSchema`); the source's
`replace` / `partial` become `replace` / `partialReplace`. -/
inductive StringUpdateMode
  | replace
  | partialReplace
deriving DecidableEq, Repr

/-- Embeds `StringUpdateSchema`: full replacement or substring substitution. -/
structure StringUpdate where
  mode : StringUpdateMode
  newValue : Option String := none
  searchPattern : Option String := none
  replaceWith : Option String := none
deriving DecidableEq, Repr

/-- Embeds `UpdateFieldsSchema`: the mutable fields of a bulk update, all optional. -/
structure UpdateFields where
  category_id : Option Int := none
  genre_id : Option Int := none
  date : Option String := none
  amount : Option Int := none
  place : Option StringUpdate := none
  name : Option StringUpdate := none
  account_id : Option Int := none
  from_account_id : Option Int := none
  to_account_id : Option Int := none
  comment : Option StringUpdate := none
deriving DecidableEq, Repr

/-- Field name of a single condition, as compared against update-field names
by `findFieldInCriteria`. -/
def strFieldName : StrField → String
  | .place => "place"
  | .name => "name"
  | .comment => "comment"
  | .category => "category"
  | .genre => "genre"
  | .account => "account"

/-- Field name of a number condition. -/
def numFieldName : NumField → String
  | .id => "id"
  | .category_id => "category_id"
  | .genre_id => "genre_id"
  | .account_id => "account_id"
  | .from_account_id => "from_account_id"
  | .to_account_id => "to_account_id"
  | .amount => "amount"

/-- The `field` property of a single condition. -/
def condFieldName : SearchCondition → String
  | .str c => strFieldName c.field
  | .num c => numFieldName c.field
  | .date _ => "date"
  | .mode _ => "mode"

mutual

/-- Embeds `findFieldInCriteria`: depth-first search for the first single condition
whose `field` equals the given name. -/
def findFieldInCriteria : SearchCriteria → String → Option SearchCondition
  | .cond c, fieldName => if condFieldName c = fieldName then some c else none
  | .composite _ conds, fieldName => findFieldInList conds fieldName

/-- The child loop of `findFieldInCriteria`. -/
def findFieldInList : List SearchCriteria → String → Option SearchCondition
  | [], _ => none
  | c :: cs, fieldName =>
    match findFieldInCriteria c fieldName with
    | some found => some found
    | none => findFieldInList cs fieldName

end

/-- The consistency-error text for one update field absent from the criteria. -/
def fieldErrorMsg (field : String) : String :=
  "更新フィールド「" ++ field ++ "」が検索条件に含まれていません。検索条件に「" ++
    field ++ "」の条件を追加してください。"

/-- One check of the `validateUpdateFieldsInCriteria` loops: an error when the
update sets the field but no predicate on it occurs in the criteria. -/
def fieldCheck (criteria : SearchCriteria) (field : String) (isSet : Bool) : List String :=
  if isSet && (findFieldInCriteria criteria field).isNone then [fieldErrorMsg field] else []

/-- Embeds `validateUpdateFieldsInCriteria`: the source's three loops (numeric
fields in their literal order, then `date`, then the string fields) unrolled;
returns the collected error messages. -/
def validateUpdateFieldsInCriteria (criteria : SearchCriteria) (updates : UpdateFields) :
    List String :=
  fieldCheck criteria "category_id" updates.category_id.isSome ++
  fieldCheck criteria "genre_id" updates.genre_id.isSome ++
  fieldCheck criteria "amount" updates.amount.isSome ++
  fieldCheck criteria "account_id" updates.account_id.isSome ++
  fieldCheck criteria "from_account_id" updates.from_account_id.isSome ++
  fieldCheck criteria "to_account_id" updates.to_account_id.isSome ++
  fieldCheck criteria "date" updates.date.isSome ++
  fieldCheck criteria "place" updates.place.isSome ++
  fieldCheck criteria "name" updates.name.isSome ++
  fieldCheck criteria "comment" updates.comment.isSome

/-- Does the update spec name this field (the `updates[field] !== undefined`
tests of the validation loops)? -/
def updatesField (u : UpdateFields) : String → Bool
  | "category_id" => u.category_id.isSome
  | "genre_id" => u.genre_id.isSome
  | "amount" => u.amount.isSome
  | "account_id" => u.account_id.isSome
  | "from_account_id" => u.from_account_id.isSome
  | "to_account_id" => u.to_account_id.isSome
  | "date" => u.date.isSome
  | "place" => u.place.isSome
  | "name" => u.name.isSome
  | "comment" => u.comment.isSome
  | _ => false

/-- Embeds `applyStringUpdate`: full replacement takes `newValue ?? ""`; partial
replacement substitutes every occurrence of the search pattern
(`current.split(pattern).join(replaceWith)`); a partial update without a
pattern leaves the current value (`?? ""`). -/
def applyStringUpdate (currentValue : Option String) (u : StringUpdate) : String :=
  match u.mode with
  | .replace => u.newValue.getD ""
  | .partialReplace =>
    match u.searchPattern with
    | some pat =>
      String.intercalate (u.replaceWith.getD "") (jsSplit (currentValue.getD "") pat)
    | none => currentValue.getD ""

/-- A value recorded in a dry-run `before`/`after` report: a number, a string,
or JS `undefined` (a present key bound to an undefined record field). -/
inductive FieldVal
  | num (n : Int)
  | str (s : String)
  | undefined
deriving DecidableEq, Repr

/-- Lift an optional numeric record field into a report value. -/
def FieldVal.ofOptInt : Option Int → FieldVal
  | some n => .num n
  | none => .undefined

/-- Lift an optional string record field into a report value. -/
def FieldVal.ofOptStr : Option String → FieldVal
  | some s => .str s
  | none => .undefined

/-- The key/value chunk contributed to a report map by one optional update
field: present exactly when the update sets the field. -/
def optChunk {α β : Type} (u : Option α) (f : α → β) : List β :=
  match u with
  | some v => [f v]
  | none => []

/-- The PUT body assembled by `calculateUpdateBody` (the constant `mapping: 1`
member is present on every body and omitted here).  `account_id` updates are
routed to `from_account_id` for payments and `to_account_id` for incomes, and
an explicit `from_account_id`/`to_account_id` update overwrites that routing. -/
structure UpdateBody where
  category_id : Option Int := none
  genre_id : Option Int := none
  amount : Option Int := none
  from_account_id : Option Int := none
  to_account_id : Option Int := none
  date : Option String := none
  place : Option String := none
  name : Option String := none
  comment : Option String := none
deriving DecidableEq, Repr

/-- The `before` report of `calculateUpdateBody`: for each field set by the
update, the record's current value, in the source's insertion order.  The
`account_id` entry records `record.from_account_id ?? record.to_account_id`. -/
def updateBefore (record : ZaimMoney) (updates : UpdateFields) : List (String × FieldVal) :=
  optChunk updates.category_id (fun _ => ("category_id", FieldVal.num record.category_id)) ++
  optChunk updates.genre_id (fun _ => ("genre_id", FieldVal.num record.genre_id)) ++
  optChunk updates.amount (fun _ => ("amount", FieldVal.num record.amount)) ++
  optChunk updates.account_id (fun _ =>
    ("account_id", FieldVal.ofOptInt (record.from_account_id <|> record.to_account_id))) ++
  optChunk updates.from_account_id (fun _ =>
    ("from_account_id", FieldVal.ofOptInt record.from_account_id)) ++
  optChunk updates.to_account_id (fun _ =>
    ("to_account_id", FieldVal.ofOptInt record.to_account_id)) ++
  optChunk updates.date (fun _ => ("date", FieldVal.str record.date)) ++
  optChunk updates.place (fun _ => ("place", FieldVal.ofOptStr record.place)) ++
  optChunk updates.name (fun _ => ("name", FieldVal.ofOptStr record.name)) ++
  optChunk updates.comment (fun _ => ("comment", FieldVal.str record.comment))

/-- The `after` report of `calculateUpdateBody`: for each field set by the
update, the proposed new value — the update's literal for numeric and date
fields, `applyStringUpdate` of the current text for string fields. -/
def updateAfter (record : ZaimMoney) (updates : UpdateFields) : List (String × FieldVal) :=
  optChunk updates.category_id (fun v => ("category_id", FieldVal.num v)) ++
  optChunk updates.genre_id (fun v => ("genre_id", FieldVal.num v)) ++
  optChunk updates.amount (fun v => ("amount", FieldVal.num v)) ++
  optChunk updates.account_id (fun v => ("account_id", FieldVal.num v)) ++
  optChunk updates.from_account_id (fun v => ("from_account_id", FieldVal.num v)) ++
  optChunk updates.to_account_id (fun v => ("to_account_id", FieldVal.num v)) ++
  optChunk updates.date (fun v => ("date", FieldVal.str v)) ++
  optChunk updates.place (fun u =>
    ("place", FieldVal.str (applyStringUpdate record.place u))) ++
  optChunk updates.name (fun u =>
    ("name", FieldVal.str (applyStringUpdate record.name u))) ++
  optChunk updates.comment (fun u =>
    ("comment", FieldVal.str (applyStringUpdate (some record.comment) u)))

/-- The PUT body of `calculateUpdateBody` (see `UpdateBody` for the
`account_id` routing). -/
def updateBodyOf (record : ZaimMoney) (updates : UpdateFields) : UpdateBody :=
  { category_id := updates.category_id
    genre_id := updates.genre_id
    amount := updates.amount
    from_account_id :=
      match updates.from_account_id with
      | some v => some v
      | none => if record.mode = .payment then updates.account_id else none
    to_account_id :=
      match updates.to_account_id with
      | some v => some v
      | none => if record.mode = .income then updates.account_id else none
    date := updates.date
    place := updates.place.map (applyStringUpdate record.place)
    name := updates.name.map (applyStringUpdate record.name)
    comment := updates.comment.map (applyStringUpdate (some record.comment)) }

/-- The ordered list of field names an update spec touches (the keys of both
report maps). -/
def touchedFields (updates : UpdateFields) : List String :=
  optChunk updates.category_id (fun _ => "category_id") ++
  optChunk updates.genre_id (fun _ => "genre_id") ++
  optChunk updates.amount (fun _ => "amount") ++
  optChunk updates.account_id (fun _ => "account_id") ++
  optChunk updates.from_account_id (fun _ => "from_account_id") ++
  optChunk updates.to_account_id (fun _ => "to_account_id") ++
  optChunk updates.date (fun _ => "date") ++
  optChunk updates.place (fun _ => "place") ++
  optChunk updates.name (fun _ => "name") ++
  optChunk updates.comment (fun _ => "comment")

/-- Count-mismatch failure message, shared verbatim by both bulk tools. -/
def countMismatchMessage (expected : Int) (actual : Nat) : String :=
  "件数不一致エラー: 期待件数=" ++ toString expected ++ "件、実際の対象件数=" ++
    toString actual ++ "件。事前にzaim_advanced_searchで対象を確認してください。"

/-- Zero-target success message, shared verbatim by both bulk tools. -/
def zeroTargetMessage : String :=
  "対象レコードが見つかりませんでした。"

/-- Empty-criteria safety failure message of the bulk delete tool. -/
def emptyCriteriaMessage : String :=
  "安全エラー: 検索条件が空です。条件なしでの全削除は許可されていません。検索条件を指定してください。"

/-- The injected per-record mutate capability (`client.put` / `client.delete`):
`ok` on success, `error msg` for a thrown transport error. -/
def MutateFn : Type :=
  Mode → Int → Except String Unit

/-- Per-record outcome of a bulk update (`UpdateResultDetail`). -/
structure UpdateResultDetail where
  id : Int
  success : Bool
  error : Option String := none
  before : Option (List (String × FieldVal)) := none
  after : Option (List (String × FieldVal)) := none
deriving DecidableEq, Repr

/-- Aggregate statistics of a bulk operation (`stats`). -/
structure BulkStats where
  targetCount : Nat
  successCount : Nat
  failureCount : Nat
  dryRun : Bool
deriving DecidableEq, Repr

/-- Result object of the bulk update tool. -/
structure BulkUpdateToolOutput where
  success : Bool
  message : String
  results : List UpdateResultDetail
  stats : BulkStats
deriving DecidableEq, Repr

/-- Input of the bulk update tool.  `expectedCount` is `Int`: the zod schema
requires a positive number, but the tool function itself accepts any count
(its own tests call it with other values). -/
structure BulkUpdateToolInput where
  criteria : SearchCriteria
  dateRange : DateRange
  updates : UpdateFields
  expectedCount : Int
  dryRun : Bool := false

/-- The sequential apply loop of the bulk update tool: one PUT per target,
per-record success/failure accounting, failures do not stop the loop. -/
def updateApplyGo (put : MutateFn) (updates : UpdateFields) :
    List ZaimMoney → List UpdateResultDetail × Nat × Nat × List ExtCall
  | [] => ([], 0, 0, [])
  | r :: rest =>
    let step := updateApplyGo put updates rest
    match put r.mode r.id with
    | .ok _ =>
      ({ id := r.id, success := true,
         before := some (updateBefore r updates),
         after := some (updateAfter r updates) } :: step.1,
       step.2.1 + 1, step.2.2.1, ExtCall.putMoney r.mode r.id :: step.2.2.2)
    | .error msg =>
      ({ id := r.id, success := false, error := some msg } :: step.1,
       step.2.1, step.2.2.1 + 1, ExtCall.putMoney r.mode r.id :: step.2.2.2)

/-- Embeds `bulkUpdateTool`: validate update-field/criteria consistency, fetch the
window, filter to the target set, check the expected count, then either
return the dry-run preview or run the apply loop.  The second component is
the trace of remote calls issued. -/
def bulkUpdateTool (input : BulkUpdateToolInput) (f : FetchFn) (put : MutateFn) :
    BulkUpdateToolOutput × List ExtCall :=
  let validationErrors := validateUpdateFieldsInCriteria input.criteria input.updates
  if validationErrors.isEmpty then
    let fetched := fetchByDateRanges f input.dateRange.start input.dateRange.stop {}
    let pg := fetched.1
    let fetchCalls := fetched.2
    if pg.hasError then
      ({ success := false,
         message := "データ取得エラー: " ++ pg.errorMessage.getD "undefined",
         results := [], stats := ⟨0, 0, 0, input.dryRun⟩ }, fetchCalls)
    else
      let targetRecords := filterRecords pg.records input.criteria
      let actualCount := targetRecords.length
      if (actualCount : Int) ≠ input.expectedCount then
        ({ success := false,
           message := countMismatchMessage input.expectedCount actualCount,
           results := [], stats := ⟨actualCount, 0, 0, input.dryRun⟩ }, fetchCalls)
      else if actualCount = 0 then
        ({ success := true, message := zeroTargetMessage,
           results := [], stats := ⟨0, 0, 0, input.dryRun⟩ }, fetchCalls)
      else if input.dryRun then
        ({ success := true,
           message := "[ドライラン] " ++ toString actualCount ++
             "件のレコードが更新対象です。実際の更新は行われていません。",
           results := targetRecords.map (fun r =>
             { id := r.id, success := true,
               before := some (updateBefore r input.updates),
               after := some (updateAfter r input.updates) }),
           stats := ⟨actualCount, actualCount, 0, true⟩ }, fetchCalls)
      else
        let applied := updateApplyGo put input.updates targetRecords
        let successCount := applied.2.1
        let failureCount := applied.2.2.1
        ({ success := failureCount = 0,
           message :=
             if failureCount = 0 then
               toString successCount ++ "件のレコードを更新しました。"
             else
               toString successCount ++ "件の更新に成功、" ++ toString failureCount ++
                 "件の更新に失敗しました。",
           results := applied.1,
           stats := ⟨actualCount, successCount, failureCount, false⟩ },
         fetchCalls ++ applied.2.2.2)
  else
    ({ success := false,
       message := "整合性エラー: " ++ String.intercalate " " validationErrors,
       results := [], stats := ⟨0, 0, 0, input.dryRun⟩ }, [])

mutual

/-- Embeds `isEmptyCriteria` of the bulk delete tool: a composite is empty when its
condition list is empty or every child is empty.  A single condition always
carries `field` and `operator` in the typed model (zod's strict schemas
reject anything else before the tool runs), so it is never empty — exactly
the source's reachable behaviour for schema-validated input. -/
def isEmptyCriteria : SearchCriteria → Bool
  | .cond _ => false
  | .composite _ conds =>
    match conds with
    | [] => true
    | _ => allEmptyCriteria conds

/-- Embeds `conditions.every(isEmptyCriteria)` over composite children. -/
def allEmptyCriteria : List SearchCriteria → Bool
  | [] => true
  | c :: cs => isEmptyCriteria c && allEmptyCriteria cs

end

/-- Human-readable summary of a record to be deleted. -/
structure DeleteSummary where
  date : String
  amount : Int
  place : Option String
  name : Option String
deriving DecidableEq, Repr

/-- Per-record outcome of a bulk delete (`DeleteResultDetail`). -/
structure DeleteResultDetail where
  id : Int
  mode : Mode
  success : Bool
  error : Option String := none
  summary : Option DeleteSummary := none
deriving DecidableEq, Repr

/-- Result object of the bulk delete tool. -/
structure BulkDeleteToolOutput where
  success : Bool
  message : String
  results : List DeleteResultDetail
  stats : BulkStats
deriving DecidableEq, Repr

/-- Input of the bulk delete tool (see `BulkUpdateToolInput` on
`expectedCount`). -/
structure BulkDeleteToolInput where
  criteria : SearchCriteria
  dateRange : DateRange
  expectedCount : Int
  dryRun : Bool := false

/-- The record summary reported by delete previews and results. -/
def deleteSummaryOf (r : ZaimMoney) : DeleteSummary :=
  ⟨r.date, r.amount, r.place, r.name⟩

/-- The sequential delete loop: one DELETE per target, per-record accounting,
failures do not stop the loop. -/
def deleteApplyGo (del : MutateFn) :
    List ZaimMoney → List DeleteResultDetail × Nat × Nat × List ExtCall
  | [] => ([], 0, 0, [])
  | r :: rest =>
    let step := deleteApplyGo del rest
    match del r.mode r.id with
    | .ok _ =>
      ({ id := r.id, mode := r.mode, success := true,
         summary := some (deleteSummaryOf r) } :: step.1,
       step.2.1 + 1, step.2.2.1, ExtCall.deleteMoney r.mode r.id :: step.2.2.2)
    | .error msg =>
      ({ id := r.id, mode := r.mode, success := false, error := some msg } :: step.1,
       step.2.1, step.2.2.1 + 1, ExtCall.deleteMoney r.mode r.id :: step.2.2.2)

/-- Embeds `bulkDeleteTool`: reject empty criteria outright, fetch the window,
filter to the target set, check the expected count, then either return the
dry-run preview or run the delete loop.  The second component is the trace of
remote calls issued. -/
def bulkDeleteTool (input : BulkDeleteToolInput) (f : FetchFn) (del : MutateFn) :
    BulkDeleteToolOutput × List ExtCall :=
  if isEmptyCriteria input.criteria then
    ({ success := false, message := emptyCriteriaMessage,
       results := [], stats := ⟨0, 0, 0, input.dryRun⟩ }, [])
  else
    let fetched := fetchByDateRanges f input.dateRange.start input.dateRange.stop {}
    let pg := fetched.1
    let fetchCalls := fetched.2
    if pg.hasError then
      ({ success := false,
         message := "データ取得エラー: " ++ pg.errorMessage.getD "undefined",
         results := [], stats := ⟨0, 0, 0, input.dryRun⟩ }, fetchCalls)
    else
      let targetRecords := filterRecords pg.records input.criteria
      let actualCount := targetRecords.length
      if (actualCount : Int) ≠ input.expectedCount then
        ({ success := false,
           message := countMismatchMessage input.expectedCount actualCount,
           results := [], stats := ⟨actualCount, 0, 0, input.dryRun⟩ }, fetchCalls)
      else if actualCount = 0 then
        ({ success := true, message := zeroTargetMessage,
           results := [], stats := ⟨0, 0, 0, input.dryRun⟩ }, fetchCalls)
      else if input.dryRun then
        ({ success := true,
           message := "[ドライラン] " ++ toString actualCount ++
             "件のレコードが削除対象です。実際の削除は行われていません。",
           results := targetRecords.map (fun r =>
             { id := r.id, mode := r.mode, success := true,
               summary := some (deleteSummaryOf r) }),
           stats := ⟨actualCount, actualCount, 0, true⟩ }, fetchCalls)
      else
        let applied := deleteApplyGo del targetRecords
        let successCount := applied.2.1
        let failureCount := applied.2.2.1
        ({ success := failureCount = 0,
           message :=
             if failureCount = 0 then
               toString successCount ++ "件のレコードを削除しました。"
             else
               toString successCount ++ "件の削除に成功、" ++ toString failureCount ++
                 "件の削除に失敗しました。",
           results := applied.1,
           stats := ⟨actualCount, successCount, failureCount, false⟩ },
         fetchCalls ++ applied.2.2.2)

/-! ### Shared lemmas -/

/-- Every call the page loop appends to the trace is a page fetch. -/
theorem fetchGo_calls_fetch (f : FetchFn) (sub : SubRange) (opts : PaginationOptions) :
    ∀ (fuel k : Nat) (acc : List ZaimMoney) (calls : List ExtCall),
    calls.all ExtCall.isFetch = true →
    (fetchGo f sub opts fuel k acc calls).calls.all ExtCall.isFetch = true := by
  intro fuel
  induction fuel with
  | zero =>
    intro k acc calls h
    simpa [fetchGo] using h
  | succ n ih =>
    intro k acc calls h
    by_cases hm : maxRecordsReached opts.maxRecords acc.length
    · simpa [fetchGo, hm] using h
    · have hcalls :
          (calls ++ [ExtCall.fetchPage sub (opts.startPage + k) opts.pageSize]).all
            ExtCall.isFetch = true := by
        simp [List.all_append, h, ExtCall.isFetch]
      cases hf : f sub (opts.startPage + k) opts.pageSize with
      | error msg => simpa [fetchGo, hm, hf] using hcalls
      | ok recs =>
        by_cases hlen : recs.length < opts.pageSize
        · simpa [fetchGo, hm, hf, hlen] using hcalls
        · simpa [fetchGo, hm, hf, hlen] using ih (k + 1) (acc ++ recs) _ hcalls

/-- The trace of `fetchAllRecords` is exactly the page loop's trace. -/
theorem fetchAllRecords_snd (f : FetchFn) (sub : SubRange) (opts : PaginationOptions) :
    (fetchAllRecords f sub opts).2 = (fetchGo f sub opts opts.maxPages 0 [] []).calls := by
  cases he : (fetchGo f sub opts opts.maxPages 0 [] []).hasError <;>
    simp [fetchAllRecords, he]

/-- Every call `fetchAllRecords` issues is a page fetch. -/
theorem fetchAllRecords_calls_fetch (f : FetchFn) (sub : SubRange) (opts : PaginationOptions) :
    (fetchAllRecords f sub opts).2.all ExtCall.isFetch = true := by
  rw [fetchAllRecords_snd]
  exact fetchGo_calls_fetch f sub opts opts.maxPages 0 [] [] rfl

/-- Every call the sub-range loop issues is a page fetch. -/
theorem rangesGo_calls_fetch (f : FetchFn) (opts : PaginationOptions) :
    ∀ (ranges : List SubRange) (acc : List ZaimMoney) (pages : Nat) (calls : List ExtCall),
    calls.all ExtCall.isFetch = true →
    (rangesGo f opts ranges acc pages calls).calls.all ExtCall.isFetch = true := by
  intro ranges
  induction ranges with
  | nil =>
    intro acc pages calls h
    simpa [rangesGo] using h
  | cons rg rest ih =>
    intro acc pages calls h
    have hcalls : (calls ++ (fetchAllRecords f rg opts).2).all ExtCall.isFetch = true := by
      rw [List.all_append, h, fetchAllRecords_calls_fetch]
      rfl
    simp only [rangesGo]
    cases he : (fetchAllRecords f rg opts).1.hasError
    · cases hm :
          maxRecordsReached opts.maxRecords (acc ++ (fetchAllRecords f rg opts).1.records).length
      · simp only [he, hm, Bool.false_eq_true, if_false]
        exact ih _ _ _ hcalls
      · simp only [he, hm, Bool.false_eq_true, if_false, if_true]
        exact hcalls
    · simp only [he, if_true]
      exact hcalls

/-- The trace of `fetchByDateRanges` is the sub-range loop's trace (empty for
an empty window split). -/
theorem fetchByDateRanges_snd (f : FetchFn) (s e : Nat) (opts : PaginationOptions) :
    (fetchByDateRanges f s e opts).2 =
      if (splitDateRange s e).isEmpty then []
      else (rangesGo f opts (splitDateRange s e) [] 0 []).calls := by
  cases hr : (splitDateRange s e).isEmpty <;> simp [fetchByDateRanges, hr]

/-- Every call `fetchByDateRanges` issues is a page fetch: the orchestrator
performs reads only. -/
theorem fetchByDateRanges_calls_fetch (f : FetchFn) (s e : Nat) (opts : PaginationOptions) :
    (fetchByDateRanges f s e opts).2.all ExtCall.isFetch = true := by
  rw [fetchByDateRanges_snd]
  cases hr : (splitDateRange s e).isEmpty
  · simp only [Bool.false_eq_true, if_false]
    exact rangesGo_calls_fetch f opts (splitDateRange s e) [] 0 [] rfl
  · rfl

/-- The deduplication scanner only drops elements, keeping order. -/
theorem removeDupGo_sublist : ∀ (l : List ZaimMoney) (seen : List Int),
    (removeDupGo seen l).Sublist l
  | [], _ => List.Sublist.refl []
  | r :: rest, seen => by
    unfold removeDupGo
    split
    · exact (removeDupGo_sublist rest seen).cons r
    · exact (removeDupGo_sublist rest (r.id :: seen)).cons₂ r

/-- The ids surviving the deduplication scanner are distinct and disjoint
from the already-seen set. -/
theorem removeDupGo_ids : ∀ (l : List ZaimMoney) (seen : List Int),
    ((removeDupGo seen l).map ZaimMoney.id).Nodup ∧
    ∀ i ∈ seen, i ∉ (removeDupGo seen l).map ZaimMoney.id
  | [], _ => by simp [removeDupGo]
  | r :: rest, seen => by
    unfold removeDupGo
    by_cases hr : r.id ∈ seen
    · rw [if_pos hr]
      exact removeDupGo_ids rest seen
    · rw [if_neg hr]
      have ih := removeDupGo_ids rest (r.id :: seen)
      refine ⟨?_, ?_⟩
      · simp only [List.map_cons, List.nodup_cons]
        exact ⟨ih.2 r.id (List.mem_cons_self r.id seen), ih.1⟩
      · intro i hi
        simp only [List.map_cons, List.mem_cons, not_or]
        exact ⟨fun hir => hr (hir ▸ hi), ih.2 i (List.mem_cons_of_mem _ hi)⟩

/-- Lemma: `removeDuplicates` keeps a subsequence of its input (first-seen order). -/
theorem removeDuplicates_sublist (l : List ZaimMoney) : (removeDuplicates l).Sublist l :=
  removeDupGo_sublist l []

/-- Lemma: `removeDuplicates` leaves pairwise distinct ids. -/
theorem removeDuplicates_nodup (l : List ZaimMoney) :
    ((removeDuplicates l).map ZaimMoney.id).Nodup :=
  (removeDupGo_ids l []).1

/-- The `formatOutput` loop never emits more records than it is given. -/
theorem formatGo_length (oc : OutputControl) (n : Nat) :
    ∀ (l : List ZaimMoney) (acc : List FormattedRecord) (tc : Nat),
    (formatGo oc n l acc tc).1.length ≤ acc.length + l.length := by
  intro l
  induction l with
  | nil => intro acc tc; simp [formatGo]
  | cons r rest ih =>
    intro acc tc
    cases hcap : oc.maxTotalChars with
    | none =>
      simp only [formatGo, hcap]
      refine le_trans (ih _ _) ?_
      simp only [List.length_append, List.length_cons, List.length_nil]
      omega
    | some cap =>
      simp only [formatGo, hcap]
      split
      · simp +arith
      · refine le_trans (ih _ _) ?_
        simp only [List.length_append, List.length_cons, List.length_nil]
        omega

/-- Lemma: `formatOutput` never emits more records than it is given. -/
theorem formatOutput_length_le (records : List ZaimMoney) (oc : Option OutputControl) :
    (formatOutput records oc).records.length ≤ records.length := by
  simpa using formatGo_length (oc.getD {}) records.length records [] 0

/-- Mapping over an optional-field report chunk rewrites its payload. -/
theorem optChunk_map {α β γ : Type} (u : Option α) (g : β → γ) (h : α → β) :
    (optChunk u h).map g = optChunk u (fun v => g (h v)) := by
  cases u <;> simp [optChunk]

/-- The keys of the dry-run `before` report are exactly the fields the update
touches, in order. -/
theorem updateBefore_keys (r : ZaimMoney) (u : UpdateFields) :
    (updateBefore r u).map Prod.fst = touchedFields u := by
  simp [updateBefore, touchedFields, List.map_append, optChunk_map]

/-- The keys of the dry-run `after` report are exactly the fields the update
touches, in order. -/
theorem updateAfter_keys (r : ZaimMoney) (u : UpdateFields) :
    (updateAfter r u).map Prod.fst = touchedFields u := by
  simp [updateAfter, touchedFields, List.map_append, optChunk_map]

/-- An update field absent from the criteria contributes its consistency
error to the validation result. -/
theorem updatesField_missing_mem (c : SearchCriteria) (u : UpdateFields) (fld : String)
    (hset : updatesField u fld = true) (hmiss : findFieldInCriteria c fld = none) :
    fieldErrorMsg fld ∈ validateUpdateFieldsInCriteria c u := by
  unfold updatesField at hset
  split at hset <;>
    simp_all [validateUpdateFieldsInCriteria, fieldCheck, List.mem_append]

mutual

/-- A criteria tree containing no single predicate: every node is a
composite. -/
def purelyComposite : SearchCriteria → Bool
  | .cond _ => false
  | .composite _ conds => allPurelyComposite conds

/-- All members of a condition list are purely composite trees. -/
def allPurelyComposite : List SearchCriteria → Bool
  | [] => true
  | c :: cs => purelyComposite c && allPurelyComposite cs

end

mutual

/-- A purely composite tree is judged empty by the delete tool's safety check. -/
theorem purely_isEmpty : ∀ c, purelyComposite c = true → isEmptyCriteria c = true
  | .cond _, h => by simp [purelyComposite] at h
  | .composite _ conds, h => by
    cases conds with
    | nil => rfl
    | cons c cs =>
      have hall := allPurely_allEmpty (c :: cs) (by simpa [purelyComposite] using h)
      simpa [isEmptyCriteria] using hall

/-- List version of `purely_isEmpty`. -/
theorem allPurely_allEmpty : ∀ cs, allPurelyComposite cs = true → allEmptyCriteria cs = true
  | [], _ => rfl
  | c :: cs, h => by
    have h' := h
    simp only [allPurelyComposite, Bool.and_eq_true] at h'
    simp [allEmptyCriteria, purely_isEmpty c h'.1, allPurely_allEmpty cs h'.2]

end

mutual

/-- A purely composite tree evaluates to `true` against every record. -/
theorem purely_eval : ∀ (r : ZaimMoney) (c : SearchCriteria),
    purelyComposite c = true → evaluateCriteria r c = true
  | _, .cond _, h => by simp [purelyComposite] at h
  | r, .composite op conds, h => by
    cases conds with
    | nil => cases op <;> rfl
    | cons c cs =>
      have hall : allPurelyComposite (c :: cs) = true := by
        simpa [purelyComposite] using h
      cases op with
      | AND => simpa [evaluateCriteria] using purely_evalAll r (c :: cs) hall
      | OR => simpa [evaluateCriteria] using purely_evalAny r c cs hall

/-- AND-branch helper of `purely_eval`. -/
theorem purely_evalAll : ∀ (r : ZaimMoney) (cs : List SearchCriteria),
    allPurelyComposite cs = true → evalAllCriteria r cs = true
  | _, [], _ => rfl
  | r, c :: cs, h => by
    have h' := h
    simp only [allPurelyComposite, Bool.and_eq_true] at h'
    simp [evalAllCriteria, purely_eval r c h'.1, purely_evalAll r cs h'.2]

/-- OR-branch helper of `purely_eval`. -/
theorem purely_evalAny : ∀ (r : ZaimMoney) (c : SearchCriteria) (cs : List SearchCriteria),
    allPurelyComposite (c :: cs) = true → evalAnyCriteria r (c :: cs) = true
  | r, c, cs, h => by
    have h' := h
    simp only [allPurelyComposite, Bool.and_eq_true] at h'
    simp [evalAnyCriteria, purely_eval r c h'.1]

end

/-! ### Concrete sample data used by witnesses and counterexamples -/

/-- A sample ledger record. -/
def sampleRecord : ZaimMoney :=
  { id := 1, mode := .payment, user_id := 1, date := "2024-01-15",
    category_id := 101, genre_id := 201, account_id := 1, amount := 1000,
    comment := "memo", place := some "SuperMart", name := some "milk", active := 1,
    created := "2024-01-15T10:00:00+09:00", currency_code := "JPY",
    category := "food", genre := "grocery", account := "cash",
    from_account_id := some 1, to_account_id := none }

/-- A second sample record with a different id and date. -/
def sampleRecord2 : ZaimMoney :=
  { sampleRecord with id := 2, date := "2024-02-02", place := some "Bakery" }

/-- A sample record with its optional fields absent. -/
def sampleAbsent : ZaimMoney :=
  { sampleRecord with
    place := none
    name := none
    from_account_id := none
    to_account_id := none }

/-- A sample record with an empty date string. -/
def sampleEmptyDate : ZaimMoney :=
  { sampleRecord with date := "" }

/-- A page fetcher that always returns an empty page. -/
def emptyFetchFn : FetchFn := fun _ _ _ => .ok []

/-- A page fetcher returning `sampleRecord` (twice, under the same id) for the
first calendar chunk and two further records for any later chunk. -/
def chunkedFetchFn : FetchFn := fun rg _ _ =>
  if rg.start = 0 then .ok [sampleRecord, sampleRecord]
  else .ok [sampleRecord2, { sampleRecord with id := 3 }]

/-- A mutate capability that always succeeds. -/
def okMutate : MutateFn := fun _ _ => .ok ()

/-- A non-empty sample criteria: `place contains "mart"`. -/
def containsMartCriteria : SearchCriteria := .cond (.str ⟨.place, .contains, "mart", none⟩)

/-! ### Claim theorems -/

/-- Claim C8: for every record and for both logical operators, a composite
condition with an empty conditions list evaluates to `true`. -/
theorem empty_composite_evaluates_true (r : ZaimMoney) (op : LogicalOperator) :
    evaluateCompositeCondition r op [] = true := by
  cases op <;> rfl

/-- Claim C9: a predicate on a field that is absent (or, for the date field,
empty) on the record evaluates to `false` for every operator of that field's
operator set.  (Evaluation is a total function by construction, so no error
can be raised; the `mode` field is required on every record, so a record
without it is outside the data model.) -/
theorem absent_field_predicate_false :
    (∀ (r : ZaimMoney) (c : StringCondition),
      strFieldValue r c.field = none → evaluateStringCondition r c = false) ∧
    (∀ (r : ZaimMoney) (c : NumberCondition),
      numFieldValue r c.field = none → evaluateNumberCondition r c = false) ∧
    (∀ (r : ZaimMoney) (c : DateCondition),
      r.date = "" → evaluateDateCondition r c = false) := by
  refine ⟨fun r c h => ?_, fun r c h => ?_, fun r c h => ?_⟩
  · simp [evaluateStringCondition, h]
  · simp [evaluateNumberCondition, h]
  · simp [evaluateDateCondition, h]

/-- Witness for C9: concrete absent-field predicates evaluating to `false`. -/
theorem absent_field_predicate_false_witness :
    strFieldValue sampleAbsent .place = none ∧
    evaluateStringCondition sampleAbsent ⟨.place, .contains, "mart", none⟩ = false ∧
    numFieldValue sampleAbsent .from_account_id = none ∧
    evaluateNumberCondition sampleAbsent ⟨.from_account_id, .lessThan, some 5, none, none⟩ = false ∧
    sampleEmptyDate.date = "" ∧
    evaluateDateCondition sampleEmptyDate ⟨.before, some "2024-02-01", none, none⟩ = false :=
  ⟨rfl, absent_field_predicate_false.1 sampleAbsent _ rfl,
   rfl, absent_field_predicate_false.2.1 sampleAbsent _ rfl,
   rfl, absent_field_predicate_false.2.2 sampleEmptyDate _ rfl⟩

/-- Claim C2: a bulk-delete request whose criteria is an empty composite is
rejected with the safety failure, with no remote call of any kind, regardless
of the date range, expected count and dry-run flag.  (The claim's other
empty shape — a single predicate missing its `field` or `operator` — cannot
be constructed in the typed model: the strict zod input schema rejects it
before the tool runs, which is what the corresponding source guard covers.) -/
theorem bulk_delete_rejects_empty_composite (op : LogicalOperator) (dr : DateRange)
    (ec : Int) (dry : Bool) (f : FetchFn) (del : MutateFn) :
    (bulkDeleteTool ⟨.composite op [], dr, ec, dry⟩ f del).1.success = false ∧
    (bulkDeleteTool ⟨.composite op [], dr, ec, dry⟩ f del).1.message = emptyCriteriaMessage ∧
    (bulkDeleteTool ⟨.composite op [], dr, ec, dry⟩ f del).2 = [] := by
  have h : isEmptyCriteria (.composite op []) = true := rfl
  simp [bulkDeleteTool, h]

/-- Claim C10: a bulk-delete request whose criteria tree consists exclusively
of composites (no predicate leaf, e.g. `{AND, [{OR, []}]}`) is rejected by the
empty-criteria safety check with no remote calls, even though such a tree
evaluates to `true` against every record. -/
theorem vacuous_composite_tree_rejected
    (op : LogicalOperator) (conds : List SearchCriteria) (dr : DateRange) (ec : Int)
    (dry : Bool) (f : FetchFn) (del : MutateFn)
    (h : allPurelyComposite conds = true) :
    (bulkDeleteTool ⟨.composite op conds, dr, ec, dry⟩ f del).1.success = false ∧
    (bulkDeleteTool ⟨.composite op conds, dr, ec, dry⟩ f del).1.message = emptyCriteriaMessage ∧
    (bulkDeleteTool ⟨.composite op conds, dr, ec, dry⟩ f del).2 = [] ∧
    (∀ r : ZaimMoney, evaluateCriteria r (.composite op conds) = true) := by
  have hempty : isEmptyCriteria (.composite op conds) = true :=
    purely_isEmpty _ (by simpa [purelyComposite] using h)
  refine ⟨?_, ?_, ?_, fun r => purely_eval r _ (by simpa [purelyComposite] using h)⟩ <;>
    simp [bulkDeleteTool, hempty]

/-- Witness for C10 at the concrete tree `{AND, [{OR, []}]}`. -/
theorem vacuous_composite_tree_rejected_witness :
    allPurelyComposite [SearchCriteria.composite .OR []] = true ∧
    (bulkDeleteTool ⟨.composite .AND [.composite .OR []], ⟨0, 30⟩, 2, false⟩
        chunkedFetchFn okMutate).1.success = false ∧
    (bulkDeleteTool ⟨.composite .AND [.composite .OR []], ⟨0, 30⟩, 2, false⟩
        chunkedFetchFn okMutate).2 = [] ∧
    evaluateCriteria sampleRecord (.composite .AND [.composite .OR []]) = true :=
  have h := vacuous_composite_tree_rejected .AND [.composite .OR []] ⟨0, 30⟩ 2 false
    chunkedFetchFn okMutate (by decide)
  ⟨by decide, h.1, h.2.2.1, h.2.2.2 sampleRecord⟩

/-- Claim C3: a bulk-update naming a field in the update spec that has no
predicate on the same field name anywhere in the criteria tree fails with a
consistency error whose text names the offending field, and issues no remote
call at all (no page fetch, no write). -/
theorem bulk_update_consistency_error
    (input : BulkUpdateToolInput) (f : FetchFn) (put : MutateFn) (fld : String)
    (hset : updatesField input.updates fld = true)
    (hmiss : findFieldInCriteria input.criteria fld = none) :
    (bulkUpdateTool input f put).1.success = false ∧
    fieldErrorMsg fld ∈ validateUpdateFieldsInCriteria input.criteria input.updates ∧
    (bulkUpdateTool input f put).1.message =
      "整合性エラー: " ++ String.intercalate " "
        (validateUpdateFieldsInCriteria input.criteria input.updates) ∧
    (bulkUpdateTool input f put).2 = [] := by
  have hmem := updatesField_missing_mem input.criteria input.updates fld hset hmiss
  have hne : (validateUpdateFieldsInCriteria input.criteria input.updates).isEmpty = false := by
    cases hval : validateUpdateFieldsInCriteria input.criteria input.updates with
    | nil => rw [hval] at hmem; cases hmem
    | cons a l => rfl
  refine ⟨?_, hmem, ?_, ?_⟩ <;> simp [bulkUpdateTool, hne]

/-- Witness for C3: updating `category_id` under a criteria that only
constrains `place` is rejected with an error naming `category_id`. -/
theorem bulk_update_consistency_error_witness :
    updatesField { category_id := some 5 } "category_id" = true ∧
    findFieldInCriteria containsMartCriteria "category_id" = none ∧
    (bulkUpdateTool
        ⟨containsMartCriteria, ⟨0, 30⟩, { category_id := some 5 }, 1, false⟩
        chunkedFetchFn okMutate).1.success = false ∧
    fieldErrorMsg "category_id" ∈
      validateUpdateFieldsInCriteria containsMartCriteria { category_id := some 5 } ∧
    (bulkUpdateTool
        ⟨containsMartCriteria, ⟨0, 30⟩, { category_id := some 5 }, 1, false⟩
        chunkedFetchFn okMutate).2 = [] :=
  have h := bulk_update_consistency_error
    ⟨containsMartCriteria, ⟨0, 30⟩, { category_id := some 5 }, 1, false⟩
    chunkedFetchFn okMutate "category_id" (by decide) (by decide)
  ⟨by decide, by decide, h.1, h.2.1, h.2.2.2⟩

/-- Claim C1: for both bulk tools, when validation passes, the fetch
succeeds, and the number of fetched records matching the criteria differs
from the declared `expectedCount`, the tool returns a failure whose message
interpolates both the expected and the actual count, and the remote trace
consists of page fetches only — zero mutate (write/delete) calls. -/
theorem bulk_count_mismatch_aborts :
    (∀ (input : BulkUpdateToolInput) (f : FetchFn) (put : MutateFn),
      validateUpdateFieldsInCriteria input.criteria input.updates = [] →
      (fetchByDateRanges f input.dateRange.start input.dateRange.stop {}).1.hasError = false →
      ((filterRecords
          (fetchByDateRanges f input.dateRange.start input.dateRange.stop {}).1.records
          input.criteria).length : Int) ≠ input.expectedCount →
      (bulkUpdateTool input f put).1.success = false ∧
      (bulkUpdateTool input f put).1.message =
        countMismatchMessage input.expectedCount
          (filterRecords
            (fetchByDateRanges f input.dateRange.start input.dateRange.stop {}).1.records
            input.criteria).length ∧
      (∃ s1 s2 s3, (bulkUpdateTool input f put).1.message =
        s1 ++ toString input.expectedCount ++ s2 ++
          toString (filterRecords
            (fetchByDateRanges f input.dateRange.start input.dateRange.stop {}).1.records
            input.criteria).length ++ s3) ∧
      (bulkUpdateTool input f put).2.all ExtCall.isFetch = true) ∧
    (∀ (input : BulkDeleteToolInput) (f : FetchFn) (del : MutateFn),
      isEmptyCriteria input.criteria = false →
      (fetchByDateRanges f input.dateRange.start input.dateRange.stop {}).1.hasError = false →
      ((filterRecords
          (fetchByDateRanges f input.dateRange.start input.dateRange.stop {}).1.records
          input.criteria).length : Int) ≠ input.expectedCount →
      (bulkDeleteTool input f del).1.success = false ∧
      (bulkDeleteTool input f del).1.message =
        countMismatchMessage input.expectedCount
          (filterRecords
            (fetchByDateRanges f input.dateRange.start input.dateRange.stop {}).1.records
            input.criteria).length ∧
      (∃ s1 s2 s3, (bulkDeleteTool input f del).1.message =
        s1 ++ toString input.expectedCount ++ s2 ++
          toString (filterRecords
            (fetchByDateRanges f input.dateRange.start input.dateRange.stop {}).1.records
            input.criteria).length ++ s3) ∧
      (bulkDeleteTool input f del).2.all ExtCall.isFetch = true) := by
  constructor
  · intro input f put hval hfetch hcount
    have hrun : bulkUpdateTool input f put =
        ({ success := false,
           message := countMismatchMessage input.expectedCount
             (filterRecords
               (fetchByDateRanges f input.dateRange.start input.dateRange.stop {}).1.records
               input.criteria).length,
           results := [],
           stats := ⟨(filterRecords
               (fetchByDateRanges f input.dateRange.start input.dateRange.stop {}).1.records
               input.criteria).length, 0, 0, input.dryRun⟩ },
         (fetchByDateRanges f input.dateRange.start input.dateRange.stop {}).2) := by
      simp [bulkUpdateTool, hval, hfetch, hcount]
    rw [hrun]
    exact ⟨rfl, rfl, ⟨_, _, _, rfl⟩,
      fetchByDateRanges_calls_fetch f input.dateRange.start input.dateRange.stop {}⟩
  · intro input f del hval hfetch hcount
    have hrun : bulkDeleteTool input f del =
        ({ success := false,
           message := countMismatchMessage input.expectedCount
             (filterRecords
               (fetchByDateRanges f input.dateRange.start input.dateRange.stop {}).1.records
               input.criteria).length,
           results := [],
           stats := ⟨(filterRecords
               (fetchByDateRanges f input.dateRange.start input.dateRange.stop {}).1.records
               input.criteria).length, 0, 0, input.dryRun⟩ },
         (fetchByDateRanges f input.dateRange.start input.dateRange.stop {}).2) := by
      simp [bulkDeleteTool, hval, hfetch, hcount]
    rw [hrun]
    exact ⟨rfl, rfl, ⟨_, _, _, rfl⟩,
      fetchByDateRanges_calls_fetch f input.dateRange.start input.dateRange.stop {}⟩

/-- Witness for C1: a delete over an empty window match with
`expectedCount = 1` and an update in the same situation both fail with the
count-mismatch message and a fetch-only trace. -/
theorem bulk_count_mismatch_aborts_witness :
    validateUpdateFieldsInCriteria containsMartCriteria {} = [] ∧
    isEmptyCriteria containsMartCriteria = false ∧
    (fetchByDateRanges emptyFetchFn 0 0 {}).1.hasError = false ∧
    ((filterRecords (fetchByDateRanges emptyFetchFn 0 0 {}).1.records
        containsMartCriteria).length : Int) ≠ 1 ∧
    (bulkUpdateTool ⟨containsMartCriteria, ⟨0, 0⟩, {}, 1, false⟩ emptyFetchFn
        okMutate).1.success = false ∧
    (bulkDeleteTool ⟨containsMartCriteria, ⟨0, 0⟩, 1, false⟩ emptyFetchFn
        okMutate).1.success = false :=
  ⟨by decide, by decide, by decide, by decide,
   (bulk_count_mismatch_aborts.1 ⟨containsMartCriteria, ⟨0, 0⟩, {}, 1, false⟩ emptyFetchFn
     okMutate (by decide) (by decide) (by decide)).1,
   (bulk_count_mismatch_aborts.2 ⟨containsMartCriteria, ⟨0, 0⟩, 1, false⟩ emptyFetchFn
     okMutate (by decide) (by decide) (by decide)).1⟩

/-- Claim C4: a dry-run bulk update that passes validation and the count
check with a non-empty target set reports, per target record, the before and
after value of every field the update touches (the keys of both reports are
exactly the touched fields, with `after` computed literally for numeric/date
fields and by substring substitution for partial string updates, per
`updateAfter`), and the remote trace contains page fetches only — the mutate
capability is never invoked. -/
theorem bulk_update_dry_run_preview
    (input : BulkUpdateToolInput) (f : FetchFn) (put : MutateFn)
    (hdry : input.dryRun = true)
    (hval : validateUpdateFieldsInCriteria input.criteria input.updates = [])
    (hfetch : (fetchByDateRanges f input.dateRange.start input.dateRange.stop {}).1.hasError
      = false)
    (hcount : ((filterRecords
        (fetchByDateRanges f input.dateRange.start input.dateRange.stop {}).1.records
        input.criteria).length : Int) = input.expectedCount)
    (hne : filterRecords
        (fetchByDateRanges f input.dateRange.start input.dateRange.stop {}).1.records
        input.criteria ≠ []) :
    (bulkUpdateTool input f put).1.success = true ∧
    (bulkUpdateTool input f put).1.stats.dryRun = true ∧
    (bulkUpdateTool input f put).1.results =
      (filterRecords
        (fetchByDateRanges f input.dateRange.start input.dateRange.stop {}).1.records
        input.criteria).map (fun r =>
          { id := r.id, success := true, error := none,
            before := some (updateBefore r input.updates),
            after := some (updateAfter r input.updates) }) ∧
    (∀ r : ZaimMoney,
      (updateBefore r input.updates).map Prod.fst = touchedFields input.updates ∧
      (updateAfter r input.updates).map Prod.fst = touchedFields input.updates) ∧
    (bulkUpdateTool input f put).2.all ExtCall.isFetch = true := by
  have hlen : (filterRecords
      (fetchByDateRanges f input.dateRange.start input.dateRange.stop {}).1.records
      input.criteria).length ≠ 0 :=
    fun h0 => hne (List.length_eq_zero.mp h0)
  have hcount' : ¬ ((filterRecords
      (fetchByDateRanges f input.dateRange.start input.dateRange.stop {}).1.records
      input.criteria).length : Int) ≠ input.expectedCount := fun h => h hcount
  refine ⟨?_, ?_, ?_, fun r => ⟨updateBefore_keys r _, updateAfter_keys r _⟩, ?_⟩
  · simp [bulkUpdateTool, hval, hfetch, hcount', hlen, hdry]
  · simp [bulkUpdateTool, hval, hfetch, hcount', hlen, hdry]
  · simp [bulkUpdateTool, hval, hfetch, hcount', hlen, hdry]
  · have hcalls :=
      fetchByDateRanges_calls_fetch f input.dateRange.start input.dateRange.stop {}
    simpa [bulkUpdateTool, hval, hfetch, hcount', hlen, hdry] using hcalls

/-- Witness for C4: a dry-run update of `place` from a full-replacement
directive, on a window whose single matching record is `sampleRecord`. -/
theorem bulk_update_dry_run_preview_witness :
    (true : Bool) = true ∧
    validateUpdateFieldsInCriteria containsMartCriteria
      { place := some ⟨.replace, some "B", none, none⟩ } = [] ∧
    (fetchByDateRanges (fun _ _ _ => Except.ok [sampleRecord]) 0 0 {}).1.hasError = false ∧
    ((filterRecords
        (fetchByDateRanges (fun _ _ _ => Except.ok [sampleRecord]) 0 0 {}).1.records
        containsMartCriteria).length : Int) = 1 ∧
    filterRecords
        (fetchByDateRanges (fun _ _ _ => Except.ok [sampleRecord]) 0 0 {}).1.records
        containsMartCriteria ≠ [] ∧
    (bulkUpdateTool
        ⟨containsMartCriteria, ⟨0, 0⟩, { place := some ⟨.replace, some "B", none, none⟩ }, 1, true⟩
        (fun _ _ _ => Except.ok [sampleRecord]) okMutate).1.success = true ∧
    (bulkUpdateTool
        ⟨containsMartCriteria, ⟨0, 0⟩, { place := some ⟨.replace, some "B", none, none⟩ }, 1, true⟩
        (fun _ _ _ => Except.ok [sampleRecord]) okMutate).2.all ExtCall.isFetch = true :=
  have h := bulk_update_dry_run_preview
    ⟨containsMartCriteria, ⟨0, 0⟩, { place := some ⟨.replace, some "B", none, none⟩ }, 1, true⟩
    (fun _ _ _ => Except.ok [sampleRecord]) okMutate rfl (by decide) (by decide) (by decide)
    (by decide)
  ⟨rfl, by decide, by decide, by decide, by decide, h.1, h.2.2.2.2⟩

/-- Claim C5 counterexample: a bulk delete whose criteria matches nothing
(validation passing, fetch succeeding) but whose `expectedCount` is 1 returns
the count-mismatch failure, not success — an empty match set alone does not
make the operation succeed. -/
theorem zero_match_nonzero_expected_fails :
    isEmptyCriteria containsMartCriteria = false ∧
    (fetchByDateRanges emptyFetchFn 0 0 {}).1.hasError = false ∧
    filterRecords (fetchByDateRanges emptyFetchFn 0 0 {}).1.records containsMartCriteria
      = [] ∧
    (bulkDeleteTool ⟨containsMartCriteria, ⟨0, 0⟩, 1, false⟩ emptyFetchFn
        okMutate).1.success = false ∧
    (bulkDeleteTool ⟨containsMartCriteria, ⟨0, 0⟩, 1, false⟩ emptyFetchFn
        okMutate).1.message = countMismatchMessage 1 0 := by
  decide

/-- Claim C5 (amended): when validation passes, the fetch succeeds, the match
set is empty and the declared `expectedCount` is 0 — so the count check
passes — both bulk tools return success with an empty results list and the
zero-target message, issuing no mutate call. -/
theorem zero_match_zero_expected_succeeds :
    (∀ (input : BulkUpdateToolInput) (f : FetchFn) (put : MutateFn),
      validateUpdateFieldsInCriteria input.criteria input.updates = [] →
      (fetchByDateRanges f input.dateRange.start input.dateRange.stop {}).1.hasError = false →
      filterRecords
        (fetchByDateRanges f input.dateRange.start input.dateRange.stop {}).1.records
        input.criteria = [] →
      input.expectedCount = 0 →
      (bulkUpdateTool input f put).1.success = true ∧
      (bulkUpdateTool input f put).1.results = [] ∧
      (bulkUpdateTool input f put).1.message = zeroTargetMessage ∧
      (bulkUpdateTool input f put).2.all ExtCall.isFetch = true) ∧
    (∀ (input : BulkDeleteToolInput) (f : FetchFn) (del : MutateFn),
      isEmptyCriteria input.criteria = false →
      (fetchByDateRanges f input.dateRange.start input.dateRange.stop {}).1.hasError = false →
      filterRecords
        (fetchByDateRanges f input.dateRange.start input.dateRange.stop {}).1.records
        input.criteria = [] →
      input.expectedCount = 0 →
      (bulkDeleteTool input f del).1.success = true ∧
      (bulkDeleteTool input f del).1.results = [] ∧
      (bulkDeleteTool input f del).1.message = zeroTargetMessage ∧
      (bulkDeleteTool input f del).2.all ExtCall.isFetch = true) := by
  constructor
  · intro input f put hval hfetch hmatch hexp
    have hcalls :=
      fetchByDateRanges_calls_fetch f input.dateRange.start input.dateRange.stop {}
    refine ⟨?_, ?_, ?_, ?_⟩
    · simp [bulkUpdateTool, hval, hfetch, hmatch, hexp]
    · simp [bulkUpdateTool, hval, hfetch, hmatch, hexp]
    · simp [bulkUpdateTool, hval, hfetch, hmatch, hexp]
    · simpa [bulkUpdateTool, hval, hfetch, hmatch, hexp] using hcalls
  · intro input f del hval hfetch hmatch hexp
    have hcalls :=
      fetchByDateRanges_calls_fetch f input.dateRange.start input.dateRange.stop {}
    refine ⟨?_, ?_, ?_, ?_⟩
    · simp [bulkDeleteTool, hval, hfetch, hmatch, hexp]
    · simp [bulkDeleteTool, hval, hfetch, hmatch, hexp]
    · simp [bulkDeleteTool, hval, hfetch, hmatch, hexp]
    · simpa [bulkDeleteTool, hval, hfetch, hmatch, hexp] using hcalls

/-- Witness for the amended C5: both tools at a concrete empty-match window
with `expectedCount = 0`. -/
theorem zero_match_zero_expected_succeeds_witness :
    validateUpdateFieldsInCriteria containsMartCriteria {} = [] ∧
    isEmptyCriteria containsMartCriteria = false ∧
    (fetchByDateRanges emptyFetchFn 0 0 {}).1.hasError = false ∧
    filterRecords (fetchByDateRanges emptyFetchFn 0 0 {}).1.records containsMartCriteria
      = [] ∧
    (bulkUpdateTool ⟨containsMartCriteria, ⟨0, 0⟩, {}, 0, false⟩ emptyFetchFn
        okMutate).1.success = true ∧
    (bulkDeleteTool ⟨containsMartCriteria, ⟨0, 0⟩, 0, false⟩ emptyFetchFn
        okMutate).1.success = true :=
  ⟨by decide, by decide, by decide, by decide,
   (zero_match_zero_expected_succeeds.1 ⟨containsMartCriteria, ⟨0, 0⟩, {}, 0, false⟩
     emptyFetchFn okMutate (by decide) (by decide) (by decide) rfl).1,
   (zero_match_zero_expected_succeeds.2 ⟨containsMartCriteria, ⟨0, 0⟩, 0, false⟩
     emptyFetchFn okMutate (by decide) (by decide) (by decide) rfl).1⟩

/-- Claim C6 counterexample: over the window `[0, 40]` (two 31-day chunks)
with `maxRecords = 3`, the fetcher accumulates 4 records of which the first
is duplicated, and the orchestrator returns only 2 records (it truncates to
`maxRecords` first and deduplicates afterwards), not exactly 3, with
`hasMore = true`. -/
theorem max_records_truncation_loses_records :
    ({ maxRecords := some 3 : PaginationOptions }).maxRecords = some 3 ∧
    (gatherAllRanges chunkedFetchFn 0 40 { maxRecords := some 3 }).length = 4 ∧
    (fetchByDateRanges chunkedFetchFn 0 40 { maxRecords := some 3 }).1.hasMore = true ∧
    (fetchByDateRanges chunkedFetchFn 0 40 { maxRecords := some 3 }).1.records.length = 2 := by
  decide

/-- Claim C6 (amended): when `maxRecords = m` is set and the records
accumulated across the sub-windows exceed m, the orchestrator truncates the
accumulated list to its first m records and then deduplicates by id
preserving first-seen order, returning `hasMore = true` and at most m records
(fewer than m exactly when the first m accumulated records repeat an id). -/
theorem max_records_truncate_then_dedup
    (f : FetchFn) (s e : Nat) (opts : PaginationOptions) (m : Nat)
    (hm : opts.maxRecords = some m)
    (hgt : m < (gatherAllRanges f s e opts).length) :
    (fetchByDateRanges f s e opts).1.records =
      removeDuplicates ((gatherAllRanges f s e opts).take m) ∧
    (fetchByDateRanges f s e opts).1.hasMore = true ∧
    (fetchByDateRanges f s e opts).1.records.length ≤ m ∧
    ((fetchByDateRanges f s e opts).1.records.map ZaimMoney.id).Nodup ∧
    (fetchByDateRanges f s e opts).1.records.Sublist
      ((gatherAllRanges f s e opts).take m) := by
  have hgt' : m < (rangesGo f opts (splitDateRange s e) [] 0 []).records.length := by
    simpa [gatherAllRanges] using hgt
  have hne : (splitDateRange s e).isEmpty = false := by
    cases hsp : (splitDateRange s e).isEmpty
    · rfl
    · exfalso
      have hnil : splitDateRange s e = [] := by
        simpa using hsp
      rw [hnil] at hgt'
      simp [rangesGo] at hgt'
  have hrec : (fetchByDateRanges f s e opts).1.records =
      removeDuplicates ((gatherAllRanges f s e opts).take m) := by
    simp [fetchByDateRanges, hne, hm, hgt', gatherAllRanges]
  refine ⟨hrec, ?_, ?_, ?_, ?_⟩
  · simp [fetchByDateRanges, hne, hm, hgt']
  · rw [hrec]
    refine le_trans (List.Sublist.length_le (removeDuplicates_sublist _)) ?_
    rw [List.length_take]
    exact min_le_left _ _
  · rw [hrec]
    exact removeDuplicates_nodup _
  · rw [hrec]
    exact removeDuplicates_sublist _

/-- Witness for the amended C6 at the concrete run of the counterexample. -/
theorem max_records_truncate_then_dedup_witness :
    ({ maxRecords := some 3 : PaginationOptions }).maxRecords = some 3 ∧
    3 < (gatherAllRanges chunkedFetchFn 0 40 { maxRecords := some 3 }).length ∧
    (fetchByDateRanges chunkedFetchFn 0 40 { maxRecords := some 3 }).1.records =
      removeDuplicates ((gatherAllRanges chunkedFetchFn 0 40 { maxRecords := some 3 }).take 3) ∧
    (fetchByDateRanges chunkedFetchFn 0 40 { maxRecords := some 3 }).1.hasMore = true :=
  have h := max_records_truncate_then_dedup chunkedFetchFn 0 40 { maxRecords := some 3 } 3
    rfl (by decide)
  ⟨rfl, by decide, h.1, h.2.1⟩

/-- Claim C7 counterexample: `formatOutput` itself does not apply
`maxRecords` — with `maxRecords = 1` and no character caps it still emits
both records. -/
theorem format_output_ignores_max_records :
    ({ maxRecords := some 1 : OutputControl }).maxRecords = some 1 ∧
    (formatOutput [sampleRecord, sampleRecord2]
      (some { maxRecords := some 1 })).count = 2 ∧
    (formatOutput [sampleRecord, sampleRecord2]
      (some { maxRecords := some 1 })).records.length = 2 := by
  decide

/-- Claim C7 (amended): the `maxRecords` bound of the output control is
enforced upstream by `searchAndSort` (the search tool passes
`output.maxRecords` to it and hands its result to `formatOutput`), before and
independently of the per-record and total character-cap logic; the formatted
output therefore contains at most `maxRecords` records for every record list,
criteria and output control, while `formatOutput` alone does not enforce it. -/
theorem search_stage_enforces_max_records
    (records : List ZaimMoney) (criteria : SearchCriteria) (oc : OutputControl) (m : Nat)
    (hm : oc.maxRecords = some m) (hpos : 0 < m) :
    (searchAndSort records criteria oc.maxRecords).length ≤ m ∧
    (formatOutput (searchAndSort records criteria oc.maxRecords) (some oc)).records.length
      ≤ m ∧
    (formatOutput (searchAndSort records criteria oc.maxRecords) (some oc)).count ≤ m := by
  have hss : (searchAndSort records criteria oc.maxRecords).length ≤ m := by
    rw [hm]
    simp only [searchAndSort, hpos, if_true]
    rw [List.length_take]
    exact min_le_left _ _
  have hfo : (formatOutput (searchAndSort records criteria oc.maxRecords)
      (some oc)).records.length ≤ m :=
    le_trans (formatOutput_length_le _ _) hss
  exact ⟨hss, hfo, hfo⟩

/-- Witness for the amended C7 at a concrete two-record list with
`maxRecords = 1`. -/
theorem search_stage_enforces_max_records_witness :
    ({ maxRecords := some 1 : OutputControl }).maxRecords = some 1 ∧
    0 < 1 ∧
    (formatOutput
      (searchAndSort [sampleRecord, sampleRecord2] (.composite .AND [])
        ({ maxRecords := some 1 : OutputControl }).maxRecords)
      (some { maxRecords := some 1 })).count ≤ 1 :=
  ⟨rfl, Nat.one_pos,
   (search_stage_enforces_max_records [sampleRecord, sampleRecord2] (.composite .AND [])
     { maxRecords := some 1 } 1 rfl Nat.one_pos).2.2⟩

end Zaim
